import Mathlib

/-!
Shallow embedding of the Magnolia clustering-based source-separation glue code:
`src/src/utils/clustering_utils.py` and
`src/magnolia/sandbox/demo/app/model_functions.py`.

Modelling conventions:
* Python/numpy floats are modelled as real numbers `ℝ`.  A float division is
  modelled by `fdiv`, which returns `none` exactly when the denominator is
  zero: `none` stands for the non-finite float results (NaN or ±Inf) that
  numpy produces there.
* A numpy `ndarray` of rank n is a record of its n dimensions together with a
  total entry function on natural-number indices (entries outside the
  dimensions are junk, as reading them in numpy would be an error).
* External collaborators of the core (the neural model's `get_vectors` /
  `predict`, the STFT/ISTFT transform library, preemphasis removal,
  `np.angle`/`np.unwrap`, `preprocess_l41_batch`, and sklearn's k-means) are
  opaque per the repository's own layering; they appear as explicit function
  parameters.  sklearn's `KMeans(n_clusters, random_state).fit(data)` is
  modelled by a deterministic algorithm applied to the effective seed: the
  supplied `random_state` when given, otherwise an ambient RNG state `env`.
-/

noncomputable section

/-- A complex number as a pair (real part, imaginary part), modelling numpy
complex entries. -/
abbrev Comp : Type := ℝ × ℝ

/-- Multiplication of a complex entry by a real mask value, as in
`masks[:,:,i]*spectrogram`. -/
def csmul (r : ℝ) (z : Comp) : Comp := (r * z.1, r * z.2)

/-- Modulus of a complex entry, modelling `np.abs` on a complex array. -/
def cAbs (z : Comp) : ℝ := Real.sqrt (z.1 ^ 2 + z.2 ^ 2)

/-- Float division: `none` models the non-finite result (NaN/Inf) numpy
produces when the denominator is zero. -/
def fdiv (x y : ℝ) : Option ℝ := if y = 0 then none else some (x / y)

/-- A rank-2 numpy array: two dimensions and a total entry function. -/
structure Arr2 (α : Type) where
  d0 : ℕ
  d1 : ℕ
  ent : ℕ → ℕ → α

/-- A rank-3 numpy array. -/
structure Arr3 (α : Type) where
  d0 : ℕ
  d1 : ℕ
  d2 : ℕ
  ent : ℕ → ℕ → ℕ → α

/-- A rank-4 numpy array (Batch, Time, Frequency, Embedding). -/
structure Arr4 (α : Type) where
  d0 : ℕ
  d1 : ℕ
  d2 : ℕ
  d3 : ℕ
  ent : ℕ → ℕ → ℕ → ℕ → α

/-- The shape tuple of a rank-3 array, as numpy's `.shape`. -/
def Arr3.shape {α : Type} (a : Arr3 α) : ℕ × ℕ × ℕ := (a.d0, a.d1, a.d2)

theorem Arr2.ext' {α : Type} {a b : Arr2 α} (h0 : a.d0 = b.d0)
    (h1 : a.d1 = b.d1) (h2 : a.ent = b.ent) : a = b := by
  cases a; cases b; simp_all

/-- The all-zero rank-2 complex array (also the default used when reading past
the end of a list of arrays). -/
def arr2zeroC : Arr2 Comp := ⟨0, 0, fun _ _ => (0, 0)⟩

/-- All entries of a rank-2 array, row-major, as numpy would flatten it. -/
def arr2vals (A : Arr2 ℝ) : List ℝ :=
  ((List.range A.d0).map (fun t => (List.range A.d1).map (fun f => A.ent t f))).flatten

/-- Minimum of a list of reals (0 on the empty list, on which numpy's `.min()`
errors out). -/
def listMinD : List ℝ → ℝ
  | [] => 0
  | [x] => x
  | x :: y :: xs => min x (listMinD (y :: xs))

/-- Maximum of a list of reals (0 on the empty list, on which numpy's `.max()`
errors out). -/
def listMaxD : List ℝ → ℝ
  | [] => 0
  | [x] => x
  | x :: y :: xs => max x (listMaxD (y :: xs))

/-- `X.min()` over a whole rank-2 array. -/
def npMin (A : Arr2 ℝ) : ℝ := listMinD (arr2vals A)

/-- `X.max()` over a whole rank-2 array. -/
def npMax (A : Arr2 ℝ) : ℝ := listMaxD (arr2vals A)

/-!  Feature normalization (`clustering_utils.preprocess_signal`, lines 31-40,
and `model_functions.featurize_spectrogram`, lines 18-28). -/

/-- Scaled input feature of `preprocess_signal` (clustering_utils lines
31-40): magnitude spectrogram, square-root squashing, then min-max
normalization `(X_in - m)/(M - m)`.  The division is unguarded in the source,
so each entry is `fdiv` of the shifted value by `M - m`. -/
def preprocess_Xin (spectrogram : Arr2 Comp) : Arr2 (Option ℝ) :=
  let mag_spec : Arr2 ℝ :=
    ⟨spectrogram.d0, spectrogram.d1, fun t f => cAbs (spectrogram.ent t f)⟩
  let X_in : Arr2 ℝ :=
    ⟨mag_spec.d0, mag_spec.d1, fun t f => Real.sqrt (mag_spec.ent t f)⟩
  let m := npMin X_in
  let M := npMax X_in
  ⟨X_in.d0, X_in.d1, fun t f => fdiv (X_in.ent t f - m) (M - m)⟩

/-- `preprocess_signal(signal, sample_rate)`: the STFT front end
`make_stft_features` is an external collaborator (outside this core), passed
in as the opaque parameter `stft`.  Returns the spectrogram and the scaled
input feature. -/
def preprocess_signal (stft : List ℝ → Arr2 Comp) (signal : List ℝ) :
    Arr2 Comp × Arr2 (Option ℝ) :=
  let spectrogram := stft signal
  (spectrogram, preprocess_Xin spectrogram)

/-- Result of `featurize_spectrogram`: normalized magnitude, unwrapped phases,
and the min/max scalars. -/
structure FeaturizeOut where
  Xin : Arr2 (Option ℝ)
  phases : Arr2 ℝ
  Xmax : ℝ
  Xmin : ℝ

/-- The square-root-squashed magnitude `np.sqrt(np.abs(spectrogram))` built in
`featurize_spectrogram` before normalization. -/
def featurize_sqrtMag (spectrogram : Arr2 Comp) : Arr2 ℝ :=
  ⟨spectrogram.d0, spectrogram.d1, fun t f => Real.sqrt (cAbs (spectrogram.ent t f))⟩

/-- `featurize_spectrogram(spectrogram)` (model_functions lines 13-28).
`np.unwrap(np.angle(...))` is an external numpy routine, passed in as the
opaque parameter `angleUnwrap`.  The min-max division `(X_input - X_min) /
(X_max - X_min)` is unguarded in the source, hence `fdiv`. -/
def featurize_spectrogram (angleUnwrap : Arr2 Comp → Arr2 ℝ)
    (spectrogram : Arr2 Comp) : FeaturizeOut :=
  let X_input := featurize_sqrtMag spectrogram
  let X_max := npMax X_input
  let X_min := npMin X_input
  { Xin := ⟨X_input.d0, X_input.d1, fun t f => fdiv (X_input.ent t f - X_min) (X_max - X_min)⟩
    phases := angleUnwrap spectrogram
    Xmax := X_max
    Xmin := X_min }

/-- The denormalization applied to the model output in `separate_sources`
(model_functions lines 61-63): `y*(X_max - X_min) + X_min` followed by
`np.square`. -/
def denormalize (Xmax Xmin y : ℝ) : ℝ := (y * (Xmax - Xmin) + Xmin) ^ 2

/-!  Waveform post-processing in `separate_sources` (model_functions lines
69-75). -/

/-- `waveform.mean()`. -/
def npMean (w : List ℝ) : ℝ := w.sum / w.length

/-- `waveform.var()` (numpy default, population variance). -/
def npVar (w : List ℝ) : ℝ := ((w.map (fun x => (x - npMean w) ^ 2)).sum) / w.length

/-- `waveform.std()`. -/
def npStd (w : List ℝ) : ℝ := Real.sqrt (npVar w)

/-- The unconditional mean/variance normalization of line 75,
`(waveform - waveform.mean())/waveform.std()`: each entry is a float
division by the standard deviation, `none` when it is zero. -/
def normalize_waveform (w : List ℝ) : List (Option ℝ) :=
  w.map (fun x => fdiv (x - npMean w) (npStd w))

/-- One iteration of the reconstruction loop of `separate_sources` (lines
69-75) for a given per-source complex spectrogram: ISTFT and preemphasis
removal are external collaborators (opaque parameters), then the
mean/variance normalization of line 75. -/
def reconstruct_source (istft : Arr2 Comp → List ℝ)
    (undo_preemphasis : List ℝ → List ℝ) (complex_spectrogram : Arr2 Comp) :
    List (Option ℝ) :=
  let waveform := istft complex_spectrogram
  let waveform := undo_preemphasis waveform
  normalize_waveform waveform

/-!  k-means clustering (`get_cluster_masks`, clustering_utils lines 70-119).
sklearn's `KMeans` is an external library; it is modelled as a deterministic
algorithm `alg` taking the effective seed, the clustering parameters and the
data.  `KMeans(..., random_state=r)` uses the seed `r`; with no
`random_state` it would draw from the ambient RNG state `env`. -/

/-- Fit result of sklearn `KMeans`: `labels_` (a cluster id per sample) and
`cluster_centers_` (one center per cluster, one coordinate per feature). -/
structure KMeansResult where
  labels : ℕ → ℕ
  centers : ℕ → ℕ → ℝ

/-- A k-means implementation: seed, `n_clusters`, number of samples, number of
features, data (sample index, feature index) to fit result. -/
def KMeansAlg : Type := ℕ → ℕ → ℕ → ℕ → (ℕ → ℕ → ℝ) → KMeansResult

/-- `KMeans(n_clusters=k, random_state=r).fit(data)` under ambient RNG state
`env`: the effective seed is the given `random_state` if any, else `env`. -/
def kmeans_fit (alg : KMeansAlg) (env : ℕ) (n_clusters : ℕ)
    (random_state : Option ℕ) (n_samples n_features : ℕ)
    (data : ℕ → ℕ → ℝ) : KMeansResult :=
  alg (random_state.getD env) n_clusters n_samples n_features data

/-- `vectors[0].reshape((shape[1]*shape[2], shape[3]))`: flat sample index
`i = t*F + f` (row-major), feature index `e`. -/
def reshapeBatch0 (vectors : Arr4 ℝ) : ℕ → ℕ → ℝ :=
  fun i e => vectors.ent 0 (i / vectors.d2) (i % vectors.d2) e

/-- The k-means fit performed inside `get_cluster_masks` (lines 92-93):
`KMeans(n_clusters=num_sources, random_state=0)` fitted to the reshaped first
batch element. -/
def get_cluster_masks_km (alg : KMeansAlg) (env : ℕ) (vectors : Arr4 ℝ)
    (num_sources : ℕ) : KMeansResult :=
  kmeans_fit alg env num_sources (some 0) (vectors.d1 * vectors.d2) vectors.d3
    (reshapeBatch0 vectors)

/-- The logistic sigmoid `1/(1 + np.exp(-x))` used for soft masks (line 117). -/
def sigmoid (x : ℝ) : ℝ := 1 / (1 + Real.exp (-x))

/-- `get_cluster_masks(vectors, num_sources, binary_mask)` (lines 70-119).
Binary branch (lines 96-105): a zero (T*F, num_sources) array gets
`masks[i, labels[i]] = 1` and is reshaped to (T, F, num_sources), so cell
(t, f, j) is 1 exactly when `labels[t*F + f] = j`.  Soft branch (lines
107-117): cell (t, f, j) is the sigmoid of the dot product of
`vectors[0][t, f]` with cluster center j. -/
def get_cluster_masks (alg : KMeansAlg) (env : ℕ) (vectors : Arr4 ℝ)
    (num_sources : ℕ) (binary_mask : Bool) : Arr3 ℝ :=
  let km := get_cluster_masks_km alg env vectors num_sources
  if binary_mask then
    ⟨vectors.d1, vectors.d2, num_sources,
      fun t f j => if km.labels (t * vectors.d2 + f) = j then 1 else 0⟩
  else
    ⟨vectors.d1, vectors.d2, num_sources,
      fun t f j =>
        sigmoid (((List.range vectors.d3).map
          (fun e => km.centers j e * vectors.ent 0 t f e)).sum)⟩

/-!  Mask application (`apply_masks`, clustering_utils lines 121-140) and the
`l41_clustering_separate` orchestrator (lines 180-215). -/

/-- `apply_masks(spectrogram, masks)`: `num_sources = masks.shape[2]` and the
list `[masks[:,:,i]*spectrogram for i in range(num_sources)]`. -/
def apply_masks (spectrogram : Arr2 Comp) (masks : Arr3 ℝ) : List (Arr2 Comp) :=
  (List.range masks.d2).map
    (fun i => ⟨spectrogram.d0, spectrogram.d1,
      fun t f => csmul (masks.ent t f i) (spectrogram.ent t f)⟩)

/-- `np.stack` on a list of equal-shaped rank-2 arrays, stacking along a new
leading axis. -/
def np_stack (l : List (Arr2 Comp)) : Arr3 Comp :=
  ⟨l.length, (l.headD arr2zeroC).d0, (l.headD arr2zeroC).d1,
    fun i t f => (l.getD i arr2zeroC).ent t f⟩

/-- `.transpose(0, 2, 1)` on a rank-3 array. -/
def transpose021 (a : Arr3 Comp) : Arr3 Comp :=
  ⟨a.d0, a.d2, a.d1, fun i f t => a.ent i t f⟩

/-- `spec[0].T`: first element along axis 0, then matrix transpose. -/
def spec0T (spec : Arr3 Comp) : Arr2 Comp :=
  ⟨spec.d2, spec.d1, fun t f => spec.ent 0 f t⟩

/-- Python `sum(...)` over a list of equal-shaped complex arrays: elementwise
sum (the empty sum is the scalar 0 broadcast). -/
def specListSum (l : List (Arr2 Comp)) : Arr2 Comp :=
  ⟨(l.headD arr2zeroC).d0, (l.headD arr2zeroC).d1,
    fun t f => (l.map (fun A => A.ent t f)).sum⟩

/-- `l41_clustering_separate(spec, model, num_sources, binary_mask)` (lines
180-215).  `preprocess_l41_batch` and the model's `get_vectors` are external
collaborators, passed as the opaque parameters `ppBatch` and `get_vectors`. -/
def l41_clustering_separate (alg : KMeansAlg) (env : ℕ)
    (ppBatch : Arr3 Comp → Arr3 ℝ) (get_vectors : Arr3 ℝ → Arr4 ℝ)
    (spec : Arr3 Comp) (num_sources : ℕ) (binary_mask : Bool) : Arr3 Comp :=
  let model_spec := ppBatch spec
  let vectors := get_vectors model_spec
  let masks := get_cluster_masks alg env vectors num_sources binary_mask
  let masked_specs := apply_masks (spec0T spec) masks
  let sources := np_stack masked_specs
  transpose021 sources

/-!  Shared helper lemmas. -/

theorem listSum_range_map {M : Type} [AddCommMonoid M] (f : ℕ → M) (n : ℕ) :
    ((List.range n).map f).sum = ∑ i ∈ Finset.range n, f i := by
  induction n with
  | zero => simp
  | succ n ih =>
      rw [List.range_succ, List.map_append, List.sum_append, Finset.sum_range_succ, ih]
      simp

theorem headD_map_range {α : Type} (f : ℕ → α) {n : ℕ} (hn : 0 < n) (d : α) :
    ((List.range n).map f).headD d = f 0 := by
  obtain ⟨m, rfl⟩ := Nat.exists_eq_succ_of_ne_zero hn.ne'
  rw [List.range_succ_eq_map]
  simp

theorem getD_map_range {α : Type} (f : ℕ → α) {n i : ℕ} (hi : i < n) (d : α) :
    ((List.range n).map f).getD i d = f i := by
  rw [List.getD_eq_getElem?_getD, List.getElem?_map, List.getElem?_range hi]
  rfl

theorem sigmoid_nonneg (x : ℝ) : 0 ≤ sigmoid x := by
  have h : (0:ℝ) < 1 + Real.exp (-x) := by positivity
  exact le_of_lt (div_pos one_pos h)

theorem sigmoid_le_one (x : ℝ) : sigmoid x ≤ 1 := by
  have h : (0:ℝ) < 1 + Real.exp (-x) := by positivity
  rw [sigmoid, div_le_one h]
  nlinarith [Real.exp_pos (-x)]

end

/-- C7: `get_cluster_masks` is deterministic: with the k-means library
modelled as a deterministic algorithm `alg` of (seed, parameters, data), two
runs under arbitrary ambient RNG states `env₁`, `env₂` produce identical
masks, because the source constructs `KMeans(..., random_state=0)` with a
fixed seed, so the ambient state is never consulted. -/
theorem get_cluster_masks_deterministic (alg : KMeansAlg) (env₁ env₂ : ℕ)
    (vectors : Arr4 ℝ) (num_sources : ℕ) (binary_mask : Bool) :
    get_cluster_masks alg env₁ vectors num_sources binary_mask =
      get_cluster_masks alg env₂ vectors num_sources binary_mask := rfl

/-- C8: `apply_masks` returns exactly `num_sources = masks.shape[2]`
spectrograms, and the i-th one is the elementwise product of the i-th mask
slice with the input spectrogram, in source-index order (the embedding is a
pure function, so the inputs are not modified). -/
theorem apply_masks_spec (spectrogram : Arr2 Comp) (masks : Arr3 ℝ) :
    (apply_masks spectrogram masks).length = masks.d2 ∧
    ∀ i : ℕ, i < masks.d2 →
      (apply_masks spectrogram masks).getD i arr2zeroC =
        ⟨spectrogram.d0, spectrogram.d1,
          fun t f => csmul (masks.ent t f i) (spectrogram.ent t f)⟩ := by
  constructor
  · simp [apply_masks]
  · intro i hi
    rw [apply_masks, getD_map_range _ hi]

/-- Witness for C8 at a concrete 1×1 spectrogram and a single mask slice. -/
theorem apply_masks_spec_witness :
    (0 < 1) ∧
    (apply_masks (⟨1, 1, fun _ _ => ((2:ℝ), (3:ℝ))⟩ : Arr2 Comp)
        (⟨1, 1, 1, fun _ _ _ => (5:ℝ)⟩ : Arr3 ℝ)).getD 0 arr2zeroC =
      ⟨1, 1, fun t f =>
        csmul ((⟨1, 1, 1, fun _ _ _ => (5:ℝ)⟩ : Arr3 ℝ).ent t f 0)
          ((⟨1, 1, fun _ _ => ((2:ℝ), (3:ℝ))⟩ : Arr2 Comp).ent t f)⟩ :=
  ⟨Nat.zero_lt_one,
    (apply_masks_spec ⟨1, 1, fun _ _ => ((2:ℝ), (3:ℝ))⟩
      ⟨1, 1, 1, fun _ _ _ => (5:ℝ)⟩).2 0 Nat.zero_lt_one⟩

/-- C3: for a spectrogram S and a mask array M of matching (time, frequency)
extent whose entries sum to 1 across the source axis at every cell, summing
the per-source outputs of `apply_masks` reconstructs S exactly. -/
theorem sum_apply_masks (S : Arr2 Comp) (M : Arr3 ℝ)
    (hT : M.d0 = S.d0) (hF : M.d1 = S.d1) (hk : 0 < M.d2)
    (hsum : ∀ t f : ℕ, ∑ j ∈ Finset.range M.d2, M.ent t f j = 1) :
    specListSum (apply_masks S M) = S := by
  refine Arr2.ext' ?_ ?_ ?_
  · simp only [specListSum, apply_masks]
    rw [headD_map_range _ hk]
  · simp only [specListSum, apply_masks]
    rw [headD_map_range _ hk]
  · funext t f
    simp only [specListSum, apply_masks, List.map_map]
    have hcast : ((List.range M.d2).map
        (fun i => csmul (M.ent t f i) (S.ent t f))).sum =
        ∑ i ∈ Finset.range M.d2, csmul (M.ent t f i) (S.ent t f) :=
      listSum_range_map _ _
    rw [Function.comp_def, hcast]
    have h1 : ∑ i ∈ Finset.range M.d2, csmul (M.ent t f i) (S.ent t f) =
        csmul (∑ i ∈ Finset.range M.d2, M.ent t f i) (S.ent t f) := by
      refine Prod.ext ?_ ?_ <;>
        simp [csmul, Prod.fst_sum, Prod.snd_sum, Finset.sum_mul]
    rw [h1, hsum, csmul]
    simp

/-- Witness for C3 at a concrete 1×1 spectrogram and a hard two-source mask. -/
theorem sum_apply_masks_witness :
    ((1:ℕ) = 1 ∧ (1:ℕ) = 1 ∧ 0 < 2 ∧
      (∀ t f : ℕ, ∑ j ∈ Finset.range 2,
        (⟨1, 1, 2, fun _ _ j => if j = 0 then (1:ℝ) else 0⟩ : Arr3 ℝ).ent t f j = 1)) ∧
    specListSum (apply_masks (⟨1, 1, fun _ _ => ((2:ℝ), (3:ℝ))⟩ : Arr2 Comp)
        (⟨1, 1, 2, fun _ _ j => if j = 0 then (1:ℝ) else 0⟩ : Arr3 ℝ)) =
      ⟨1, 1, fun _ _ => ((2:ℝ), (3:ℝ))⟩ :=
  ⟨⟨rfl, rfl, by decide, fun t f => by simp [Finset.sum_range_succ]⟩,
    sum_apply_masks ⟨1, 1, fun _ _ => ((2:ℝ), (3:ℝ))⟩
      ⟨1, 1, 2, fun _ _ j => if j = 0 then (1:ℝ) else 0⟩ rfl rfl (by decide)
      (fun t f => by simp [Finset.sum_range_succ])⟩

/-- C2: in binary-mask mode `get_cluster_masks` returns a
(Time, Frequency, num_sources) array whose entries are all 0 or 1 and which
sums to exactly 1 across the source axis at every in-range (time, frequency)
cell.  The hypothesis `hlab` is sklearn's contract that every fitted label
lies in `[0, n_clusters)`. -/
theorem get_cluster_masks_binary_partition (alg : KMeansAlg) (env : ℕ)
    (vectors : Arr4 ℝ) (num_sources : ℕ)
    (hB : 0 < vectors.d0) (hk : 0 < num_sources)
    (hlab : ∀ i, i < vectors.d1 * vectors.d2 →
      (get_cluster_masks_km alg env vectors num_sources).labels i < num_sources)
    (t f : ℕ) (ht : t < vectors.d1) (hf : f < vectors.d2) :
    (get_cluster_masks alg env vectors num_sources true).shape =
      (vectors.d1, vectors.d2, num_sources) ∧
    (∀ j : ℕ, (get_cluster_masks alg env vectors num_sources true).ent t f j = 0 ∨
      (get_cluster_masks alg env vectors num_sources true).ent t f j = 1) ∧
    ∑ j ∈ Finset.range num_sources,
      (get_cluster_masks alg env vectors num_sources true).ent t f j = 1 := by
  have hidx : t * vectors.d2 + f < vectors.d1 * vectors.d2 := by
    calc t * vectors.d2 + f < t * vectors.d2 + vectors.d2 := by omega
    _ = (t + 1) * vectors.d2 := by ring
    _ ≤ vectors.d1 * vectors.d2 := Nat.mul_le_mul_right _ (Nat.succ_le_of_lt ht)
  refine ⟨rfl, ?_, ?_⟩
  · intro j
    simp only [get_cluster_masks, if_true]
    by_cases h : (get_cluster_masks_km alg env vectors num_sources).labels
        (t * vectors.d2 + f) = j
    · right; simp [h]
    · left; simp [h]
  · simp only [get_cluster_masks, if_true]
    rw [Finset.sum_ite_eq]
    rw [if_pos (Finset.mem_range.mpr (hlab _ hidx))]

/-- Witness for C2 with a concrete k-means algorithm that labels every sample
0, a (1,1,1,1) vector array and two sources. -/
theorem get_cluster_masks_binary_partition_witness :
    (0 < 1 ∧ 0 < 2 ∧
      (∀ i, i < 1 * 1 →
        (get_cluster_masks_km (fun _ _ _ _ _ => ⟨fun _ => 0, fun _ _ => 0⟩) 0
          ⟨1, 1, 1, 1, fun _ _ _ _ => (0:ℝ)⟩ 2).labels i < 2) ∧
      0 < 1 ∧ 0 < 1) ∧
    ((get_cluster_masks (fun _ _ _ _ _ => ⟨fun _ => 0, fun _ _ => 0⟩) 0
        ⟨1, 1, 1, 1, fun _ _ _ _ => (0:ℝ)⟩ 2 true).shape = (1, 1, 2) ∧
      (∀ j : ℕ,
        (get_cluster_masks (fun _ _ _ _ _ => ⟨fun _ => 0, fun _ _ => 0⟩) 0
          ⟨1, 1, 1, 1, fun _ _ _ _ => (0:ℝ)⟩ 2 true).ent 0 0 j = 0 ∨
        (get_cluster_masks (fun _ _ _ _ _ => ⟨fun _ => 0, fun _ _ => 0⟩) 0
          ⟨1, 1, 1, 1, fun _ _ _ _ => (0:ℝ)⟩ 2 true).ent 0 0 j = 1) ∧
      ∑ j ∈ Finset.range 2,
        (get_cluster_masks (fun _ _ _ _ _ => ⟨fun _ => 0, fun _ _ => 0⟩) 0
          ⟨1, 1, 1, 1, fun _ _ _ _ => (0:ℝ)⟩ 2 true).ent 0 0 j = 1) :=
  ⟨⟨Nat.zero_lt_one, by decide, by decide, Nat.zero_lt_one, Nat.zero_lt_one⟩,
    get_cluster_masks_binary_partition (fun _ _ _ _ _ => ⟨fun _ => 0, fun _ _ => 0⟩) 0
      ⟨1, 1, 1, 1, fun _ _ _ _ => (0:ℝ)⟩ 2 Nat.zero_lt_one (by decide)
      (by decide) 0 0 Nat.zero_lt_one Nat.zero_lt_one⟩

/-- C6: in soft-mask mode `get_cluster_masks` assigns each cell (t, f) and
each source j the logistic sigmoid of the dot product of the cell's embedding
vector from batch element 0 with cluster center j, and every such value lies
in [0, 1] (no normalization across sources is performed). -/
theorem get_cluster_masks_soft_spec (alg : KMeansAlg) (env : ℕ)
    (vectors : Arr4 ℝ) (num_sources : ℕ) (t f j : ℕ) :
    (get_cluster_masks alg env vectors num_sources false).ent t f j =
      sigmoid (∑ e ∈ Finset.range vectors.d3,
        (get_cluster_masks_km alg env vectors num_sources).centers j e *
          vectors.ent 0 t f e) ∧
    0 ≤ (get_cluster_masks alg env vectors num_sources false).ent t f j ∧
    (get_cluster_masks alg env vectors num_sources false).ent t f j ≤ 1 := by
  have h : (get_cluster_masks alg env vectors num_sources false).ent t f j =
      sigmoid (∑ e ∈ Finset.range vectors.d3,
        (get_cluster_masks_km alg env vectors num_sources).centers j e *
          vectors.ent 0 t f e) := by
    simp only [get_cluster_masks, Bool.false_eq_true, if_false]
    rw [listSum_range_map]
  exact ⟨h, h ▸ sigmoid_nonneg _, h ▸ sigmoid_le_one _⟩

/-- C9: `get_cluster_masks` depends only on the first batch element of its
vectors input: two vector arrays of the same shape that agree at batch index
0 produce identical masks, in both binary and soft mode. -/
theorem get_cluster_masks_batch0_only (alg : KMeansAlg) (env : ℕ)
    (v v' : Arr4 ℝ) (num_sources : ℕ) (binary_mask : Bool)
    (h0 : v.d0 = v'.d0) (h1 : v.d1 = v'.d1) (h2 : v.d2 = v'.d2)
    (h3 : v.d3 = v'.d3) (hent : v.ent 0 = v'.ent 0) :
    get_cluster_masks alg env v num_sources binary_mask =
      get_cluster_masks alg env v' num_sources binary_mask := by
  unfold get_cluster_masks get_cluster_masks_km reshapeBatch0
  simp only [h1, h2, h3, hent]

/-- Witness for C9: two (2,1,1,1) vector arrays that agree at batch index 0
and differ at batch index 1 give identical binary masks. -/
theorem get_cluster_masks_batch0_only_witness :
    ((2:ℕ) = 2 ∧ (1:ℕ) = 1 ∧ (1:ℕ) = 1 ∧ (1:ℕ) = 1 ∧
      (⟨2, 1, 1, 1, fun b _ _ _ => if b = 0 then (0:ℝ) else 1⟩ : Arr4 ℝ).ent 0 =
        (⟨2, 1, 1, 1, fun b _ _ _ => if b = 0 then (0:ℝ) else 2⟩ : Arr4 ℝ).ent 0) ∧
    get_cluster_masks (fun _ _ _ _ _ => ⟨fun _ => 0, fun _ _ => 0⟩) 0
        ⟨2, 1, 1, 1, fun b _ _ _ => if b = 0 then (0:ℝ) else 1⟩ 2 true =
      get_cluster_masks (fun _ _ _ _ _ => ⟨fun _ => 0, fun _ _ => 0⟩) 0
        ⟨2, 1, 1, 1, fun b _ _ _ => if b = 0 then (0:ℝ) else 2⟩ 2 true :=
  ⟨⟨rfl, rfl, rfl, rfl, rfl⟩,
    get_cluster_masks_batch0_only (fun _ _ _ _ _ => ⟨fun _ => 0, fun _ _ => 0⟩) 0
      ⟨2, 1, 1, 1, fun b _ _ _ => if b = 0 then (0:ℝ) else 1⟩
      ⟨2, 1, 1, 1, fun b _ _ _ => if b = 0 then (0:ℝ) else 2⟩ 2 true
      rfl rfl rfl rfl rfl⟩


/-- Counterexample for C4: for a spectrogram of shape (1, F, T) = (1, 2, 3)
and one source, `l41_clustering_separate` does not return shape
(num_sources, T, F) = (1, 3, 2) — the documented transpose yields
(num_sources, F, T) = (1, 2, 3) instead. -/
theorem l41_clustering_separate_shape_cex :
    (l41_clustering_separate (fun _ _ _ _ _ => ⟨fun _ => 0, fun _ _ => 0⟩) 0
        (fun _ => ⟨1, 1, 1, fun _ _ _ => 0⟩) (fun _ => ⟨1, 3, 2, 1, fun _ _ _ _ => 0⟩)
        ⟨1, 2, 3, fun _ _ _ => ((0:ℝ), (0:ℝ))⟩ 1 true).shape ≠ (1, 3, 2) := by
  decide

/-- C4 (amended): for a spectrogram of shape (1, F, T) and `num_sources ≥ 1`,
`l41_clustering_separate` returns shape (num_sources, F, T) — i.e.
(num_sources, frequency, time), matching the layout of the input
spectrogram's last two axes — after the documented transpose. -/
theorem l41_clustering_separate_shape (alg : KMeansAlg) (env : ℕ)
    (ppBatch : Arr3 Comp → Arr3 ℝ) (get_vectors : Arr3 ℝ → Arr4 ℝ)
    (spec : Arr3 Comp) (num_sources : ℕ) (binary_mask : Bool)
    (hB : spec.d0 = 1) (hk : 0 < num_sources) :
    (l41_clustering_separate alg env ppBatch get_vectors spec num_sources
        binary_mask).shape = (num_sources, spec.d1, spec.d2) := by
  have hd2 : (get_cluster_masks alg env (get_vectors (ppBatch spec)) num_sources
      binary_mask).d2 = num_sources := by
    unfold get_cluster_masks
    cases binary_mask <;> rfl
  simp only [l41_clustering_separate, transpose021, np_stack, Arr3.shape, apply_masks]
  rw [headD_map_range _ (by rw [hd2]; exact hk)]
  simp [hd2, spec0T]

/-- Witness for C4's amended theorem at a concrete (1, 2, 3) spectrogram and
one source: the output shape is (1, 2, 3). -/
theorem l41_clustering_separate_shape_witness :
    ((⟨1, 2, 3, fun _ _ _ => ((0:ℝ), (0:ℝ))⟩ : Arr3 Comp).d0 = 1 ∧ 0 < 1) ∧
    (l41_clustering_separate (fun _ _ _ _ _ => ⟨fun _ => 0, fun _ _ => 0⟩) 0
        (fun _ => ⟨1, 1, 1, fun _ _ _ => 0⟩) (fun _ => ⟨1, 3, 2, 1, fun _ _ _ _ => 0⟩)
        ⟨1, 2, 3, fun _ _ _ => ((0:ℝ), (0:ℝ))⟩ 1 true).shape = (1, 2, 3) :=
  ⟨⟨rfl, Nat.zero_lt_one⟩,
    l41_clustering_separate_shape (fun _ _ _ _ _ => ⟨fun _ => 0, fun _ _ => 0⟩) 0
      (fun _ => ⟨1, 1, 1, fun _ _ _ => 0⟩) (fun _ => ⟨1, 3, 2, 1, fun _ _ _ _ => 0⟩)
      ⟨1, 2, 3, fun _ _ _ => ((0:ℝ), (0:ℝ))⟩ 1 true rfl Nat.zero_lt_one⟩

/-- C10: when the square-root magnitude of the spectrogram has
`X_max ≠ X_min`, applying the denormalization of `separate_sources`
(multiply by `X_max - X_min`, add `X_min`, square) to every entry of the
normalized feature returned by `featurize_spectrogram` recovers the
magnitude `|spectrogram|` exactly. -/
theorem featurize_denormalize_inverts (angleUnwrap : Arr2 Comp → Arr2 ℝ)
    (spectrogram : Arr2 Comp)
    (h : (featurize_spectrogram angleUnwrap spectrogram).Xmax ≠
      (featurize_spectrogram angleUnwrap spectrogram).Xmin) (t f : ℕ) :
    ((featurize_spectrogram angleUnwrap spectrogram).Xin.ent t f).map
      (denormalize (featurize_spectrogram angleUnwrap spectrogram).Xmax
        (featurize_spectrogram angleUnwrap spectrogram).Xmin) =
      some (cAbs (spectrogram.ent t f)) := by
  simp only [featurize_spectrogram] at h ⊢
  have hd : npMax (featurize_sqrtMag spectrogram) -
      npMin (featurize_sqrtMag spectrogram) ≠ 0 := sub_ne_zero.mpr h
  rw [fdiv, if_neg hd]
  simp only [Option.map_some']
  rw [denormalize, div_mul_cancel₀ _ hd, sub_add_cancel, featurize_sqrtMag]
  exact congrArg some (Real.sq_sqrt (Real.sqrt_nonneg _))

/-- Witness for C10 at the concrete 1×2 spectrogram with entries 0 and 1:
its square-root magnitudes are 0 and 1, so X_max = 1 ≠ 0 = X_min, and
denormalizing the normalized entry at (0, 1) recovers the magnitude 1. -/
theorem featurize_denormalize_inverts_witness :
    ((featurize_spectrogram (fun _ => ⟨1, 2, fun _ _ => 0⟩)
        ⟨1, 2, fun _ f => if f = 0 then ((0:ℝ), (0:ℝ)) else (1, 0)⟩).Xmax ≠
      (featurize_spectrogram (fun _ => ⟨1, 2, fun _ _ => 0⟩)
        ⟨1, 2, fun _ f => if f = 0 then ((0:ℝ), (0:ℝ)) else (1, 0)⟩).Xmin) ∧
    ((featurize_spectrogram (fun _ => ⟨1, 2, fun _ _ => 0⟩)
        ⟨1, 2, fun _ f => if f = 0 then ((0:ℝ), (0:ℝ)) else (1, 0)⟩).Xin.ent 0 1).map
      (denormalize
        (featurize_spectrogram (fun _ => ⟨1, 2, fun _ _ => 0⟩)
          ⟨1, 2, fun _ f => if f = 0 then ((0:ℝ), (0:ℝ)) else (1, 0)⟩).Xmax
        (featurize_spectrogram (fun _ => ⟨1, 2, fun _ _ => 0⟩)
          ⟨1, 2, fun _ f => if f = 0 then ((0:ℝ), (0:ℝ)) else (1, 0)⟩).Xmin) =
      some (cAbs ((⟨1, 2, fun _ f => if f = 0 then ((0:ℝ), (0:ℝ)) else (1, 0)⟩ :
        Arr2 Comp).ent 0 1)) := by
  have hmm : (featurize_spectrogram (fun _ => ⟨1, 2, fun _ _ => 0⟩)
      ⟨1, 2, fun _ f => if f = 0 then ((0:ℝ), (0:ℝ)) else (1, 0)⟩).Xmax ≠
      (featurize_spectrogram (fun _ => ⟨1, 2, fun _ _ => 0⟩)
        ⟨1, 2, fun _ f => if f = 0 then ((0:ℝ), (0:ℝ)) else (1, 0)⟩).Xmin := by
    simp only [featurize_spectrogram, npMax, npMin, featurize_sqrtMag, arr2vals, cAbs,
      List.range_succ, List.range_zero]
    norm_num [listMaxD, listMinD, Real.sqrt_zero, Real.sqrt_one]
  exact ⟨hmm, featurize_denormalize_inverts (fun _ => ⟨1, 2, fun _ _ => 0⟩)
    ⟨1, 2, fun _ f => if f = 0 then ((0:ℝ), (0:ℝ)) else (1, 0)⟩ hmm 0 1⟩

/-- C1 (code bug): the min-max normalization in `preprocess_signal` and
`featurize_spectrogram` is not guarded: at an all-zero 1×1 spectrogram the
square-root magnitude has max = min = 0, the division is 0/0, and every
entry of the returned feature is non-finite (NaN), not a well-defined
(all-zero) value. -/
theorem preprocess_zero_spectrogram_nan :
    (preprocess_Xin ⟨1, 1, fun _ _ => ((0:ℝ), (0:ℝ))⟩).ent 0 0 = none ∧
    (featurize_spectrogram (fun _ => ⟨1, 1, fun _ _ => 0⟩)
      ⟨1, 1, fun _ _ => ((0:ℝ), (0:ℝ))⟩).Xin.ent 0 0 = none := by
  constructor
  · simp only [preprocess_Xin, npMax, npMin, arr2vals, cAbs, fdiv,
      List.range_succ, List.range_zero]
    norm_num [listMaxD, listMinD, Real.sqrt_zero]
  · simp only [featurize_spectrogram, featurize_sqrtMag, npMax, npMin, arr2vals, cAbs,
      fdiv, List.range_succ, List.range_zero]
    norm_num [listMaxD, listMinD, Real.sqrt_zero]

/-- C5 (code bug): line 75 of `separate_sources` normalizes unconditionally,
so an all-zero reconstructed waveform (standard deviation 0) is divided by
zero and every sample of the returned waveform is non-finite (NaN) instead
of the normalization being skipped. -/
theorem separate_sources_zero_waveform_nan :
    reconstruct_source (fun _ => [0, 0]) id ⟨1, 1, fun _ _ => ((0:ℝ), (0:ℝ))⟩ =
      [none, none] := by
  simp only [reconstruct_source, normalize_waveform, fdiv, npStd, npVar, npMean, id]
  norm_num [Real.sqrt_zero]
